import Mathlib

/-!
Verification development for the `sea` stock-screening repository.

The subject of the claims is the walk-forward backtesting engine
(`stock_backtester.py`) and the daily scanner (`stock_scanner_go.py`).
Both are built on pandas; we shallowly embed the relevant computations
over `List (Option ℚ)`:

* a pandas value is `Option ℚ` — `none` models NaN ("not available");
* `some q` models a finite float, abstracted as an exact rational;
* pandas comparisons involving NaN are `false`; arithmetic propagates
  NaN; `Series.where(mask, 0)` replaces entries whose mask is `false`
  (including NaN positions) by `0`;
* `rolling(p).mean/min/max` (default `min_periods = p`) is `none`
  until `p` values are present and whenever the window contains NaN;
* `ewm(..., adjust=True)`  (pandas default) with `ignore_na=False`
  keeps position-based weights `(1-α)^(t-i)` over the valid entries;
* `ewm(..., adjust=False)` follows the documented recurrence that
  decays both the weighted numerator and the weight mass on NaN gaps;
* division by zero: `pdDiv` returns `none` on a zero denominator.
  This is the pandas value for `0/0` (NaN); the `x/0 = ±inf` case for
  `x ≠ 0` is not modelled, and every theorem that can reach a zero
  denominator carries a well-formedness hypothesis confining it to
  the `0/0` case.
* CSV parsing, file I/O and the multiprocessing pool are outside the
  embedding: a per-instrument run receives the parsed frame directly.
-/

namespace Sea

/-- NaN-propagating addition of pandas values. -/
def oAdd : Option ℚ → Option ℚ → Option ℚ
  | some x, some y => some (x + y)
  | _, _ => none

/-- NaN-propagating subtraction of pandas values. -/
def oSub : Option ℚ → Option ℚ → Option ℚ
  | some x, some y => some (x - y)
  | _, _ => none

/-- NaN-propagating multiplication of pandas values. -/
def oMul : Option ℚ → Option ℚ → Option ℚ
  | some x, some y => some (x * y)
  | _, _ => none

/-- NaN-propagating negation. -/
def oNeg : Option ℚ → Option ℚ
  | some x => some (-x)
  | none => none

/-- NaN-propagating absolute value. -/
def oAbs : Option ℚ → Option ℚ
  | some x => some |x|
  | none => none

/-- Pandas division. NaN operands propagate; a zero denominator yields
NaN. The latter is exact pandas behaviour for `0/0`; the `x/0 = ±inf`
case (`x ≠ 0`) is not representable here, and theorems whose inputs
could reach it carry hypotheses restricting them to the `0/0` case. -/
def pdDiv : Option ℚ → Option ℚ → Option ℚ
  | some x, some y => if y = 0 then none else some (x / y)
  | _, _ => none

/-- Pandas `<` on values: any comparison with NaN is `false`. -/
def oLt : Option ℚ → Option ℚ → Bool
  | some x, some y => decide (x < y)
  | _, _ => false

/-- Pandas `≤` on values: any comparison with NaN is `false`. -/
def oLe : Option ℚ → Option ℚ → Bool
  | some x, some y => decide (x ≤ y)
  | _, _ => false

/-- Pandas `>` on values. -/
def oGt (a b : Option ℚ) : Bool := oLt b a

/-- Pandas `≥` on values. -/
def oGe (a b : Option ℚ) : Bool := oLe b a

/-- `Series.shift(1)`: push a NaN in front, drop the last entry. -/
def shift1 (xs : List (Option ℚ)) : List (Option ℚ) :=
  none :: xs.dropLast

/-- `Series.diff()`: elementwise difference with the shifted series. -/
def pdDiff (xs : List (Option ℚ)) : List (Option ℚ) :=
  List.zipWith oSub xs (shift1 xs)

/-- Collect a list of pandas values into `some` list of rationals iff
none of them is NaN (used for rolling windows, whose aggregations are
NaN when any window entry is NaN under `min_periods = window`). -/
def seqOpt : List (Option ℚ) → Option (List ℚ)
  | [] => some []
  | none :: _ => none
  | some v :: rest => (seqOpt rest).map (v :: ·)

/-- The rolling window of width `p` ending at index `i`: the entries
at indices `i, i-1, …, i-p+1` (order is irrelevant to sum/min/max).
Out-of-range positions read as NaN, so an aggregation over a window
that leaves the series is NaN, as in pandas. -/
def window (xs : List (Option ℚ)) (p i : Nat) : List (Option ℚ) :=
  (List.range p).map (fun k => xs.getD (i - k) none)

/-- `rolling(p).mean()` at index `i`. -/
def rollMeanAt (p : Nat) (xs : List (Option ℚ)) (i : Nat) : Option ℚ :=
  if p ≤ i + 1 then (seqOpt (window xs p i)).map (fun l => l.sum / (p : ℚ))
  else none

/-- `rolling(p).mean()` as a series aligned with the input. -/
def rollMean (p : Nat) (xs : List (Option ℚ)) : List (Option ℚ) :=
  (List.range xs.length).map (rollMeanAt p xs)

/-- Minimum of a nonempty rational list. -/
def listMin : List ℚ → Option ℚ
  | [] => none
  | x :: rest => some (rest.foldl min x)

/-- Maximum of a nonempty rational list. -/
def listMax : List ℚ → Option ℚ
  | [] => none
  | x :: rest => some (rest.foldl max x)

/-- `rolling(p).min()` at index `i`. -/
def rollMinAt (p : Nat) (xs : List (Option ℚ)) (i : Nat) : Option ℚ :=
  if p ≤ i + 1 then (seqOpt (window xs p i)).bind listMin else none

/-- `rolling(p).max()` at index `i`. -/
def rollMaxAt (p : Nat) (xs : List (Option ℚ)) (i : Nat) : Option ℚ :=
  if p ≤ i + 1 then (seqOpt (window xs p i)).bind listMax else none

/-- `ewm(alpha=a, adjust=True, ignore_na=False).mean()`, the pandas
default. State `(num, den)` carries the position-weighted sum of valid
values and the corresponding weight mass; both decay by `(1-a)` at
every position, NaN entries contributing nothing. Output is NaN until
the first valid value. -/
def ewmAdjAux (a : ℚ) : List (Option ℚ) → ℚ → ℚ → List (Option ℚ)
  | [], _, _ => []
  | x :: rest, num, den =>
    let num2 := (1 - a) * num + (match x with | some v => v | none => 0)
    let den2 := (1 - a) * den + (match x with | some _ => 1 | none => 0)
    (if den2 = 0 then none else some (num2 / den2)) :: ewmAdjAux a rest num2 den2

/-- `ewm(alpha=a, adjust=True).mean()` over a series. -/
def ewmAdj (a : ℚ) (xs : List (Option ℚ)) : List (Option ℚ) :=
  ewmAdjAux a xs 0 0

/-- `ewm(alpha=a, adjust=False, ignore_na=False).mean()`. The state is
`some (num, den)` once a valid value has been seen; per the pandas
documentation the first valid value is the seed with weight 1, later
valid values enter with weight `a`, and NaN gaps decay both
accumulators by `(1-a)`. -/
def ewmNoAdjAux (a : ℚ) : List (Option ℚ) → Option (ℚ × ℚ) → List (Option ℚ)
  | [], _ => []
  | x :: rest, none =>
    match x with
    | none => none :: ewmNoAdjAux a rest none
    | some v => some v :: ewmNoAdjAux a rest (some (v, 1))
  | x :: rest, some (num, den) =>
    let st := match x with
      | some v => ((1 - a) * num + a * v, (1 - a) * den + a)
      | none => ((1 - a) * num, (1 - a) * den)
    some (st.1 / st.2) :: ewmNoAdjAux a rest (some st)

/-- `ewm(alpha=a, adjust=False).mean()` over a series. -/
def ewmNoAdj (a : ℚ) (xs : List (Option ℚ)) : List (Option ℚ) :=
  ewmNoAdjAux a xs none

/-- The alpha corresponding to `ewm(span=s)`. -/
def alphaOfSpan (s : ℚ) : ℚ := 2 / (s + 1)

/-- The alpha corresponding to `ewm(com=c)`. -/
def alphaOfCom (c : ℚ) : ℚ := 1 / (1 + c)

/-- Round a rational to the nearest integer, ties to even — the
rounding rule of Python's built-in `round`. (Python rounds the binary
float; we model numbers as exact rationals, so the rule is applied to
the exact value.) -/
def roundHalfEven (x : ℚ) : ℤ :=
  let f := Int.floor x
  let r := x - f
  if r < 1/2 then f
  else if 1/2 < r then f + 1
  else if f % 2 = 0 then f else f + 1

/-- Python `round(x, nd)` on our rational model. -/
def pyRound (nd : Nat) (x : ℚ) : ℚ :=
  ((roundHalfEven (x * 10 ^ nd) : ℚ) / 10 ^ nd)

/-- `round(x, 2)` as used for prices and returns. -/
def round2 (x : ℚ) : ℚ := pyRound 2 x

/-- `round(x, 1)` as used for RSI display. -/
def round1 (x : ℚ) : ℚ := pyRound 1 x

/-- `Series.replace(0, np.nan)` on one value. -/
def replZero (o : Option ℚ) : Option ℚ :=
  o.bind (fun v => if v = 0 then none else some v)

/-- `Series.replace(0, np.nan)`. -/
def replaceZeroNan (xs : List (Option ℚ)) : List (Option ℚ) :=
  xs.map replZero

/-! ## Scanner indicator library (`stock_scanner_go.py`, `calculate_indicators`) -/

namespace Scanner

/-- One row of a scanner input frame: the columns read by
`calculate_indicators` and `process_single_stock`. The source column
names are Chinese (not valid Lean identifiers); the mapping is
`收盘 ↦ close`, `最高 ↦ high`, `最低 ↦ low`, `成交量 ↦ volume`,
`换手率 ↦ turnover`, `涨跌幅 ↦ pctChange`. Values are pandas floats,
possibly NaN. -/
structure SBar where
  close : Option ℚ
  high : Option ℚ
  low : Option ℚ
  volume : Option ℚ
  turnover : Option ℚ
  pctChange : Option ℚ
  deriving Repr, DecidableEq

/-- `delta = close.diff()`. -/
def deltaOf (close : List (Option ℚ)) : List (Option ℚ) := pdDiff close

/-- `delta.where(delta > 0, 0)` — the gain series of `get_rsi`.
Entries whose mask is false (including the leading NaN of `diff`)
become `0`. -/
def gainSeries (close : List (Option ℚ)) : List (Option ℚ) :=
  (deltaOf close).map (fun d => if oGt d (some 0) then d else some 0)

/-- `-delta.where(delta < 0, 0)` — the loss series of `get_rsi`. -/
def lossSeries (close : List (Option ℚ)) : List (Option ℚ) :=
  (deltaOf close).map (fun d => oNeg (if oLt d (some 0) then d else some 0))

/-- The rolling `period`-bar average gain feeding `get_rsi`. -/
def avgGainAt (period : Nat) (close : List (Option ℚ)) (i : Nat) : Option ℚ :=
  rollMeanAt period (gainSeries close) i

/-- The rolling `period`-bar average loss feeding `get_rsi` — named so
the zero-average-loss contract can be stated against the source
series. -/
def avgLossAt (period : Nat) (close : List (Option ℚ)) (i : Nat) : Option ℚ :=
  rollMeanAt period (lossSeries close) i

/-- `get_rsi(period)` of `stock_scanner_go.calculate_indicators` at one
index: `rs = gain.rolling.mean() / loss.rolling.mean().replace(0, nan)`
fed into `100 - 100 / (1 + rs)`. All series in the source are aligned
index-for-index, so the elementwise form is the pandas computation at
index `i`. -/
def get_rsiAt (period : Nat) (close : List (Option ℚ)) (i : Nat) : Option ℚ :=
  oSub (some 100)
    (pdDiv (some 100)
      (oAdd (some 1)
        (pdDiv (avgGainAt period close i) (replZero (avgLossAt period close i)))))

/-- `get_rsi(period)` as a series (`df['rsi6']`, `df['rsi14']`). -/
def get_rsi (period : Nat) (close : List (Option ℚ)) : List (Option ℚ) :=
  (List.range close.length).map (get_rsiAt period close)

/-- The 9-bar rolling low of the `最低` column. -/
def low9At (df : List SBar) (i : Nat) : Option ℚ :=
  rollMinAt 9 (df.map (·.low)) i

/-- The 9-bar rolling high of the `最高` column. -/
def high9At (df : List SBar) (i : Nat) : Option ℚ :=
  rollMaxAt 9 (df.map (·.high)) i

/-- KDJ RSV at index `i`:
`(close - low_list) / (high_list - low_list) * 100`, exactly as in
`stock_scanner_go.calculate_indicators` — no zero-range guard exists
in the source. -/
def rsvAt (df : List SBar) (i : Nat) : Option ℚ :=
  let close := (df.map (·.close)).getD i none
  oMul (pdDiv (oSub close (low9At df i)) (oSub (high9At df i) (low9At df i)))
    (some 100)

/-- The RSV series. -/
def rsvList (df : List SBar) : List (Option ℚ) :=
  (List.range df.length).map (rsvAt df)

end Scanner

/-! ## Backtester (`stock_backtester.py`) -/

namespace Backtester

/-- `HOLD_PERIODS = [1, 3, 5, 7, 14, 20, 30]`. -/
def HOLD_PERIODS : List Nat := [1, 3, 5, 7, 14, 20, 30]

/-- `WEEKLY_RSI_THRESHOLD = 35`. -/
def WEEKLY_RSI_THRESHOLD : ℚ := 35

/-- One row of a backtester input frame: the columns read by
`backtest_single_stock` (`日期 ↦ date`, `开盘 ↦ open_`, `收盘 ↦ close`,
`成交量 ↦ volume`; Chinese column names are not valid Lean
identifiers). Dates are modelled as absolute day numbers; the epoch is
aligned so that day numbers `≡ 6 (mod 7)` are the Sunday week-end
labels produced by `resample('W')`. Prices are pandas floats, possibly
NaN; the volume column is not read by the backtester but is part of
the series and is quantified over by the claims. -/
structure Bar where
  date : Nat
  open_ : Option ℚ
  close : Option ℚ
  volume : Option ℚ
  deriving Repr, DecidableEq

/-- The close column of a frame. -/
def closes (df : List Bar) : List (Option ℚ) := df.map (·.close)

/-- The close at bar `i` (NaN when out of range). -/
def closeO (df : List Bar) (i : Nat) : Option ℚ := (closes df).getD i none

/-- The open at bar `i` (NaN when out of range). -/
def openO (df : List Bar) (i : Nat) : Option ℚ := (df.map (·.open_)).getD i none

/-- The volume at bar `i` (NaN when out of range). -/
def volO (df : List Bar) (i : Nat) : Option ℚ := (df.map (·.volume)).getD i none

/-- The date at bar `i` (0 when out of range; never read out of range
by the embedded code paths). -/
def dateAt (df : List Bar) (i : Nat) : Nat := ((df.map (·.date)).getD i 0)

/-- `df['ma5'] = close.rolling(5).mean()` at bar `i`. -/
def ma5At (df : List Bar) (i : Nat) : Option ℚ := rollMeanAt 5 (closes df) i

/-- The daily RSI6 of `calculate_indicators`:
`100 - 100/(1 + gain.rolling(6).mean() / abs(delta).rolling(6).mean().replace(0, nan))`.
Note the denominator is the rolling mean of `|delta|` (gains plus
losses), not of the losses alone. -/
def rsi6At (df : List Bar) (i : Nat) : Option ℚ :=
  let delta := pdDiff (closes df)
  let gain := rollMeanAt 6 (delta.map (fun d => if oGt d (some 0) then d else some 0)) i
  let absMean := replZero (rollMeanAt 6 (delta.map oAbs) i)
  oSub (some 100) (pdDiv (some 100) (oAdd (some 1) (pdDiv gain absMean)))

/-- The rolling 6-bar mean of `|delta|` — the divisor of `rsi6`; its
zero case is the backtester's "average loss is zero and average gain
is zero" situation. -/
def absMean6At (df : List Bar) (i : Nat) : Option ℚ :=
  rollMeanAt 6 ((pdDiff (closes df)).map oAbs) i

/-- `ema12 - ema26` of `calculate_indicators` (`ewm(span=·)` defaults
to `adjust=True`). -/
def difListB (df : List Bar) : List (Option ℚ) :=
  List.zipWith oSub (ewmAdj (alphaOfSpan 12) (closes df))
    (ewmAdj (alphaOfSpan 26) (closes df))

/-- `df['macd_hist'] = (ema12 - ema26 - (ema12 - ema26).ewm(span=9).mean()) * 2`. -/
def macdHistListB (df : List Bar) : List (Option ℚ) :=
  List.zipWith (fun d e => oMul (oSub d e) (some 2))
    (difListB df) (ewmAdj (alphaOfSpan 9) (difListB df))

/-- `df['macd_improving'] = macd_hist > macd_hist.shift(1)` at bar `i`. -/
def macdImprovingAt (df : List Bar) (i : Nat) : Bool :=
  oGt ((macdHistListB df).getD i none) ((shift1 (macdHistListB df)).getD i none)

/-- The ignition predicate of the scan loop:
`curr['rsi6'] < 25 and curr['收盘'] > curr['ma5'] and curr['macd_improving']`.
NaN comparisons are false. -/
def ignitionB (df : List Bar) (i : Nat) : Bool :=
  oLt (rsi6At df i) (some 25) && oGt (closeO df i) (ma5At df i) &&
    macdImprovingAt df i

/-- The `resample('W')` bucket label of a day number: the Sunday ending
its week (day numbers `≡ 6 (mod 7)`). -/
def weekEnd (d : Nat) : Nat := 7 * (d / 7) + 6

/-- Insert a number into a sorted list, dropping duplicates. -/
def insortDedup (x : Nat) : List Nat → List Nat
  | [] => [x]
  | y :: rest =>
    if x < y then x :: y :: rest
    else if x = y then y :: rest
    else y :: insortDedup x rest

/-- Sort a list of numbers ascending, dropping duplicates. -/
def sortDedup (l : List Nat) : List Nat := l.foldr insortDedup []

/-- The sorted weekly labels of the frame: one label per week holding
at least one bar with a non-NaN close (`resample('W').agg('last')`
followed by `dropna()` keeps exactly those buckets). -/
def weeklyLabels (df : List Bar) : List Nat :=
  sortDedup (df.filterMap (fun b => if b.close.isSome then some (weekEnd b.date) else none))

/-- `agg({'收盘': 'last'})` for one weekly bucket: the last non-NaN
close of the bucket in chronological order (`resample` sorts by date;
ties keep the later row). -/
def lastCloseInWeek (df : List Bar) (lab : Nat) : Option ℚ :=
  (df.foldl
    (fun acc b =>
      if weekEnd b.date = lab ∧ b.close.isSome then
        match acc with
        | none => some (b.date, b.close)
        | some (d, _) => if d ≤ b.date then some (b.date, b.close) else acc
      else acc)
    none).bind (·.2)

/-- The weekly close series, aligned with `weeklyLabels`. -/
def weeklyCloses (df : List Bar) : List (Option ℚ) :=
  (weeklyLabels df).map (lastCloseInWeek df)

/-- `get_weekly_rsi`'s weekly `w_rsi6` series, aligned with
`weeklyLabels`: on the weekly closes,
`gain = delta.where(delta > 0, 0).rolling(6).mean()`,
`loss = abs(delta).rolling(6).mean()`,
`w_rsi6 = 100 - (100 / (1 + gain/loss.replace(0, nan)))`. -/
def weeklyRsiList (df : List Bar) : List (Option ℚ) :=
  let wc := weeklyCloses df
  let delta := pdDiff wc
  let gain := rollMean 6 (delta.map (fun d => if oGt d (some 0) then d else some 0))
  let loss := replaceZeroNan (rollMean 6 (delta.map oAbs))
  (List.range wc.length).map (fun i =>
    oSub (some 100) (pdDiv (some 100) (oAdd (some 1)
      (pdDiv (gain.getD i none) (loss.getD i none)))))

/-- `df_w[:current_date].iloc[-1]` applied to the `w_rsi6` column:
`none` models the `IndexError` raised when no weekly label is `≤ d`
(an empty slice has no last row); `some w` is the `w_rsi6` value of
the last weekly row at or before `d` (itself possibly NaN). -/
def wLookup (df : List Bar) (d : Nat) : Option (Option ℚ) :=
  let pos := ((weeklyLabels df).filter (· ≤ d)).length
  if pos = 0 then none else some ((weeklyRsiList df).getD (pos - 1) none)

/-- The `SignalEvent` record built by the scan loop (the dict literal
of `backtest_single_stock` plus, for specification purposes, the bar
index `idx` the signal fired at and the `buy_price` local, which the
spec's `SignalEvent` carries as `entry_price`). `rets` is aligned with
`HOLD_PERIODS`. -/
structure Sig where
  code : String
  idx : Nat
  sigDate : Nat
  level : String
  weeklyRsi : Option ℚ
  entry : Option ℚ
  rets : List (Option ℚ)
  deriving Repr, DecidableEq

/-- Build the signal record emitted at bar `i` (used on the no-fault
path, where `wLookup` is `some`). -/
def mkSigAt (code : String) (df : List Bar) (i : Nat) : Sig :=
  let w := (wLookup df (dateAt df i)).getD none
  let buy := openO df (i + 1)
  { code := code
    idx := i
    sigDate := dateAt df i
    level := if oLt w (some WEEKLY_RSI_THRESHOLD) then "SSS-日周共振" else "B-日线点火"
    weeklyRsi := w.map round1
    entry := buy
    rets := HOLD_PERIODS.map (fun p =>
      (pdDiv (oSub (closeO df (i + p)) buy) buy).bind
        (fun r => some (round2 (r * 100)))) }

/-- The indices scanned by the loop:
`range(100, len(df) - max(HOLD_PERIODS))`. -/
def scanRange (df : List Bar) : List Nat :=
  (List.range (df.length - 30 - 100)).map (· + 100)

/-- The scan loop of `backtest_single_stock`. `none` models an
exception escaping the loop (the `IndexError` of the weekly lookup on
an empty slice), which the bare `except:` of the source turns into an
empty result for the whole instrument — discarding `acc`. -/
def btLoop (code : String) (df : List Bar) : List Nat → List Sig → Option (List Sig)
  | [], acc => some acc
  | i :: rest, acc =>
    if ignitionB df i then
      match wLookup df (dateAt df i) with
      | none => none
      | some _ =>
        if oLe (openO df (i + 1)) (some 0) then btLoop code df rest acc
        else btLoop code df rest (acc ++ [mkSigAt code df i])
    else btLoop code df rest acc

/-- `backtest_single_stock`: series shorter than 150 bars return `[]`;
otherwise the scan loop runs, and any fault yields `[]` via the bare
`except:`. (CSV reading is outside the embedding; the function
receives the parsed frame.) -/
def backtest_single_stock (code : String) (df : List Bar) : List Sig :=
  if df.length < 150 then []
  else (btLoop code df (scanRange df) []).getD []

/-- `true` iff the scan loop raises (the weekly lookup faults at some
ignition bar). -/
def scanFault (code : String) (df : List Bar) : Bool :=
  (btLoop code df (scanRange df) []).isNone

/-- The claim's four-condition signal predicate at bar `i`: RSI6 < 25,
close above MA5, volume greater than the previous bar's volume, and an
improving MACD histogram. The volume test is first so that concrete
evaluation short-circuits; the source's ignition predicate
(`ignitionB`) omits the volume test. -/
def fourCondB (df : List Bar) (i : Nat) : Bool :=
  oGt (volO df i) ((shift1 (df.map (·.volume))).getD i none) &&
    oLt (rsi6At df i) (some 25) && oGt (closeO df i) (ma5At df i) &&
    macdImprovingAt df i

/-! ### Aggregation and statistics (`main`, lines 102-114) -/

/-- `(sub_df[col] > 0).mean() * 100` followed by `round(·, 2)`: the
boolean series has no NaN (NaN returns compare as `False`), so the
mean divides by the FULL row count. -/
def codeWinRate (rets : List (Option ℚ)) : ℚ :=
  round2 (((rets.countP (fun o => oGt o (some 0)) : ℚ) / rets.length) * 100)

/-- `sub_df[col].mean()` followed by `round(·, 2)`: pandas `mean`
skips NaN (default `skipna=True`) and is NaN when no valid value
exists. -/
def codeAvgRet (rets : List (Option ℚ)) : Option ℚ :=
  if (rets.filterMap id).isEmpty then none
  else some (round2 ((rets.filterMap id).sum / (rets.filterMap id).length))

/-- `len(sub_df)`: every row counts. -/
def codeCount (rets : List (Option ℚ)) : Nat := rets.length

/-- Modelled from the spec's drop-null policy ("exclude them from the
denominator"): all three statistics are computed over the non-NaN
returns only. Presentation (×100, `round(·, 2)`) follows the code so
that only the choice of valid set is compared. -/
def dropWinRate (rets : List (Option ℚ)) : ℚ :=
  round2 ((((rets.filterMap id).countP (fun r => decide (0 < r)) : ℚ) /
    (rets.filterMap id).length) * 100)

/-- Drop-null average return. -/
def dropAvgRet (rets : List (Option ℚ)) : Option ℚ :=
  if (rets.filterMap id).isEmpty then none
  else some (round2 ((rets.filterMap id).sum / (rets.filterMap id).length))

/-- Drop-null sample count. -/
def dropCount (rets : List (Option ℚ)) : Nat := (rets.filterMap id).length

/-- Modelled from the spec's zero-fill policy ("include the sentinel
value"): NaN returns become the sentinel `0` and all three statistics
run over the filled list. -/
def zeroWinRate (rets : List (Option ℚ)) : ℚ :=
  round2 ((((rets.map (·.getD 0)).countP (fun r => decide (0 < r)) : ℚ) /
    (rets.map (·.getD 0)).length) * 100)

/-- Zero-fill average return. -/
def zeroAvgRet (rets : List (Option ℚ)) : Option ℚ :=
  if (rets.map (·.getD 0)).isEmpty then none
  else some (round2 ((rets.map (·.getD 0)).sum / (rets.map (·.getD 0)).length))

/-- Zero-fill sample count. -/
def zeroCount (rets : List (Option ℚ)) : Nat := rets.length

/-- One row of the summary table (`胜率% / 平均收益% / 样本数`). -/
structure StatRow where
  level : String
  period : Nat
  winRate : ℚ
  avgRet : Option ℚ
  count : Nat
  deriving Repr, DecidableEq

/-- The return column of a signal table for the `k`-th hold period. -/
def retCol (sub : List Sig) (k : Nat) : List (Option ℚ) :=
  sub.map (fun s => s.rets.getD k none)

/-- The summary rows for one resonance level: skip the level when it
has no signals (`if sub_df.empty: continue`), otherwise one row per
hold period. -/
def levelStats (rows : List Sig) (lv : String) : List StatRow :=
  if (rows.filter (fun s => s.level = lv)).isEmpty then []
  else (List.range HOLD_PERIODS.length).map (fun k =>
    { level := lv
      period := HOLD_PERIODS.getD k 0
      winRate := codeWinRate (retCol (rows.filter (fun s => s.level = lv)) k)
      avgRet := codeAvgRet (retCol (rows.filter (fun s => s.level = lv)) k)
      count := codeCount (retCol (rows.filter (fun s => s.level = lv)) k) })

/-- The full summary table over the flattened signal ledger, iterating
levels in the source's order. -/
def summaryOf (rows : List Sig) : List StatRow :=
  levelStats rows "B-日线点火" ++ levelStats rows "SSS-日周共振"

end Backtester

/-! ## Scanner selection logic (`stock_scanner_go.py`, `process_single_stock`) -/

namespace Scanner

/-- The close column of a scanner frame. -/
def closesS (df : List SBar) : List (Option ℚ) := df.map (·.close)

/-- `df['rsi6']` of the scanner at index `i`. -/
def rsi6SAt (df : List SBar) (i : Nat) : Option ℚ := get_rsiAt 6 (closesS df) i

/-- `df['rsi14']` of the scanner at index `i`. -/
def rsi14SAt (df : List SBar) (i : Nat) : Option ℚ := get_rsiAt 14 (closesS df) i

/-- `df['kdj_k'] = rsv.ewm(com=2).mean()` (pandas default
`adjust=True`). -/
def kdjKList (df : List SBar) : List (Option ℚ) :=
  ewmAdj (alphaOfCom 2) (rsvList df)

/-- `df['kdj_d'] = df['kdj_k'].ewm(com=2).mean()`. -/
def kdjDList (df : List SBar) : List (Option ℚ) :=
  ewmAdj (alphaOfCom 2) (kdjKList df)

/-- `df['kdj_gold'] = (k > d) & (k.shift(1) <= d.shift(1))` at index `i`. -/
def kdjGoldAt (df : List SBar) (i : Nat) : Bool :=
  oGt ((kdjKList df).getD i none) ((kdjDList df).getD i none) &&
    oLe ((shift1 (kdjKList df)).getD i none) ((shift1 (kdjDList df)).getD i none)

/-- `df['diff'] = ema12 - ema26` with `adjust=False`, as in the
scanner's MACD block. -/
def difListS (df : List SBar) : List (Option ℚ) :=
  List.zipWith oSub (ewmNoAdj (alphaOfSpan 12) (closesS df))
    (ewmNoAdj (alphaOfSpan 26) (closesS df))

/-- `df['macd_hist'] = (diff - dea) * 2` with
`dea = diff.ewm(span=9, adjust=False).mean()`. -/
def macdHistListS (df : List SBar) : List (Option ℚ) :=
  List.zipWith (fun d e => oMul (oSub d e) (some 2))
    (difListS df) (ewmNoAdj (alphaOfSpan 9) (difListS df))

/-- `df['macd_improving']` of the scanner at index `i`. -/
def macdImprovingSAt (df : List SBar) (i : Nat) : Bool :=
  oGt ((macdHistListS df).getD i none) ((shift1 (macdHistListS df)).getD i none)

/-- `close.rolling(p).mean()` at index `i` (MA5/MA10/MA20/MA60). -/
def maAt (p : Nat) (df : List SBar) (i : Nat) : Option ℚ :=
  rollMeanAt p (closesS df) i

/-- The MA5 series. -/
def ma5List (df : List SBar) : List (Option ℚ) :=
  (List.range df.length).map (maAt 5 df)

/-- `df['ma5_up'] = ma5 >= ma5.shift(1)` at index `i`. -/
def ma5UpAt (df : List SBar) (i : Nat) : Bool :=
  oGe ((ma5List df).getD i none) ((shift1 (ma5List df)).getD i none)

/-- `df['avg_turnover_30']` at index `i`. -/
def avgTurnover30At (df : List SBar) (i : Nat) : Option ℚ :=
  rollMeanAt 30 (df.map (·.turnover)) i

/-- `df['vol_ma5'] = volume.shift(1).rolling(5).mean()` at index `i`. -/
def volMa5At (df : List SBar) (i : Nat) : Option ℚ :=
  rollMeanAt 5 (shift1 (df.map (·.volume))) i

/-- `df['vol_ratio'] = volume / vol_ma5` at index `i`. -/
def volRatioAt (df : List SBar) (i : Nat) : Option ℚ :=
  pdDiv ((df.map (·.volume)).getD i none) (volMa5At df i)

/-- `str.upper` on one character, as Python's `str.upper` restricted
to the code points occurring here (ASCII letters map to upper case;
CJK characters are fixed points in both). -/
def upChar (c : Char) : Char := c.toUpper

/-- `"ST" in s` on the uppercased character list. -/
def containsSTChars : List Char → Bool
  | [] => false
  | c :: rest =>
    (match c, rest with
      | 'S', 'T' :: _ => true
      | _, _ => false) || containsSTChars rest

/-- `"ST" in stock_name.upper()`. -/
def containsST (s : String) : Bool :=
  containsSTChars (s.data.map upChar)

/-- `name_map.get(stock_code, "未知")` with the name map as an
association list. -/
def nameLookup (nameMap : List (String × String)) (code : String) : String :=
  ((nameMap.find? (fun kv => kv.1 = code)).map (·.2)).getD "未知"

/-- The result record of `process_single_stock`. The source builds
formatted strings (`f"{round(latest['rsi6'],1)}/..."`); the record
keeps the formatted components, which determine those strings:
`指标状态` is determined by the two flags, `RSI6/14` by the two rounded
values, `距60日线` and `今日涨跌` by the rounded percentages. -/
structure ScanRec where
  tag : String
  code : String
  name : String
  price : Option ℚ
  volRatio : Option ℚ
  kdjGoldF : Bool
  ma5UpF : Bool
  rsi6R : Option ℚ
  rsi14R : Option ℚ
  potentialR : Option ℚ
  changeR : Option ℚ
  deriving Repr, DecidableEq

/-- The scan body of `process_single_stock` after the ST-name gate:
length guard, price and turnover gates, the tag ladder, and the record
construction. The display name is plugged in by the caller (its only
other use in the source is the ST gate); the `stats_dict` counters are
bookkeeping side effects with no influence on the result and are not
modelled. `none` is `return None`. -/
def scanBody (code : String) (df : List SBar) : Option ScanRec :=
  if df.length < 60 then none
  else
    let i := df.length - 1
    let close := (closesS df).getD i none
    if oLt close (some 5) then none
    else if oGt (avgTurnover30At df i) (some (5/2)) then none
    else
      let ma60 := maAt 60 df i
      let potential := oMul (pdDiv (oSub ma60 close) close) (some 100)
      let change := (df.map (·.pctChange)).getD i none
      let isOversold := oLe (rsi6SAt df i) (some 25) && oLe (rsi14SAt df i) (some 35) &&
        oLe ((kdjKList df).getD i none) (some 30)
      let isShrinkVol := oLe (some (1/5)) (volRatioAt df i) && oLe (volRatioAt df i) (some (17/20))
      let isSmallBody := oLe (oAbs change) (some (3/2))
      let tag0 : String :=
        if isOversold && oGt close (maAt 5 df i) && macdImprovingSAt df i then
          (if ma5UpAt df i && oGt (volRatioAt df i) (some (1/2)) then "0-均线共振点火(最强)" else "")
        else ""
      let tag1 : String :=
        if tag0 = "" && isOversold && kdjGoldAt df i && macdImprovingSAt df i then
          "1-多指标共振金叉" else tag0
      let tag : String :=
        if tag1 = "" && isOversold && isShrinkVol && isSmallBody && oGe potential (some 15) then
          "2-极致缩量潜伏"
        else if tag1 = "" && isOversold && oGe potential (some 10) then
          "3-准入选观察池"
        else tag1
      if tag = "" then none
      else some
        { tag := tag
          code := code
          name := ""
          price := close.map round2
          volRatio := (volRatioAt df i).map round2
          kdjGoldF := kdjGoldAt df i
          ma5UpF := ma5UpAt df i
          rsi6R := (rsi6SAt df i).map round1
          rsi14R := (rsi14SAt df i).map round1
          potentialR := potential.map round1
          changeR := change.map round1 }

/-- `process_single_stock` for one instrument: resolve the display
name, drop ST-named instruments, then run the scan body; the name's
only remaining use is the `名称` field of the record. -/
def process_single_stock (code : String) (nameMap : List (String × String))
    (df : List SBar) : Option ScanRec :=
  let name := nameLookup nameMap code
  if containsST name then none
  else (scanBody code df).map (fun r => { r with name := name })

/-- Blank out the `名称` decoration field, for stating that the name
map affects nothing else. -/
def maskName (r : Option ScanRec) : Option ScanRec :=
  r.map (fun x => { x with name := "" })

end Scanner

/-! ## Concrete inputs used by counterexamples and witnesses -/

namespace Scanner

/-- Eight strictly rising closes: every window's average loss is 0. -/
def rsiUpCloses : List (Option ℚ) :=
  (List.range 8).map (fun t => some ((t : ℚ) + 1))

/-- Alternating closes with both gains and losses, so RSI is defined. -/
def rsiZigCloses : List (Option ℚ) :=
  (List.range 8).map (fun t => if t % 2 = 0 then some 1 else some 2)

/-- A constant bar: the 9-bar high equals the 9-bar low. -/
def constSBar : SBar :=
  { close := some 5, high := some 5, low := some 5, volume := some 1,
    turnover := some 1, pctChange := some 0 }

/-- Ten constant bars — a zero-range series for the KDJ RSV claim. -/
def constFrame : List SBar := List.replicate 10 constSBar

/-- A steadily declining bar (close = high = low = 100 - t) with flat
volume and turnover: deeply oversold, far below MA60, shrinking
nothing — it lands in the scanner's observation-pool tag. -/
def declBar (t : Nat) : SBar :=
  { close := some (100 - (t : ℚ)), high := some (100 - (t : ℚ)),
    low := some (100 - (t : ℚ)), volume := some 100, turnover := some 1,
    pctChange := some (-1) }

/-- Sixty declining bars: passes every scanner gate with tag
`3-准入选观察池` when the display name is not ST. -/
def scan60 : List SBar := (List.range 60).map declBar

/-- A name table giving the instrument an ST display name. -/
def stNameMap : List (String × String) := [("X", "stA")]

/-- A name table giving the instrument a non-ST display name. -/
def plainNameMap : List (String × String) := [("X", "Alpha")]

end Scanner

namespace Backtester

/-- Closes of the 130-bar example: flat at 100, a 2-point daily slide
over bars 100-109, a 4-point rebound at bar 110, then flat. -/
def bt130Close (t : Nat) : ℚ :=
  if t < 100 then 100 else if t ≤ 109 then 100 - 2 * ((t : ℚ) - 99) else 84

/-- Bars of the 130-bar example; only bar 110 has a volume increase,
so only bar 110 can satisfy the claim's four-condition predicate. -/
def bt130Bar (t : Nat) : Bar :=
  { date := t, open_ := some (bt130Close t), close := some (bt130Close t),
    volume := some (if t = 110 then 200 else 100) }

/-- The 130-bar series of the synthetic-scenario claim: exactly one
bar (110) satisfies RSI6 < 25, close > MA5, volume above the previous
bar, and an improving MACD histogram. -/
def bt130 : List Bar := (List.range 130).map bt130Bar

/-- Closes of the 150-bar example: flat at 100, a slide over bars
105-114, a rebound at bar 115, then flat. -/
def bt150Close (t : Nat) : ℚ :=
  if t < 105 then 100 else if t ≤ 114 then 100 - 2 * ((t : ℚ) - 104) else 84

/-- Bars of the 150-bar example. -/
def bt150Bar (t : Nat) : Bar :=
  { date := t, open_ := some (bt150Close t), close := some (bt150Close t),
    volume := some 100 }

/-- A 150-bar series whose scan range contains exactly one ignition
bar (115). -/
def bt150 : List Bar := (List.range 150).map bt150Bar

/-- A 99-bar series (below the minimum length). -/
def bt99 : List Bar := (List.range 99).map (fun t =>
  { date := t, open_ := some 10, close := some 10, volume := some 1 })

/-- A signal record used by the aggregation examples. -/
def sigA : Sig :=
  { code := "A", idx := 100, sigDate := 100, level := "B-日线点火",
    weeklyRsi := none, entry := some 10,
    rets := [some 1, some 2, some 3, some 4, some 5, some 6, some 7] }

/-- A second signal record at the other resonance level. -/
def sigB : Sig :=
  { code := "B", idx := 120, sigDate := 120, level := "SSS-日周共振",
    weeklyRsi := some 20, entry := some 8,
    rets := [some (-1), some 2, none, some (-4), some 5, some 6, some 7] }

/-- A return column holding one valid and one NaN return — the input
separating the three aggregation statistics' validity policies. -/
def mixedCol : List (Option ℚ) := [some 10, none]

/-- A return column with no NaN entries. -/
def allValidCol : List (Option ℚ) := [some 5, some (-3), some 2]

end Backtester

/-! ## Helper lemmas -/

lemma seqOpt_forall {xs : List (Option ℚ)} {l : List ℚ} (h : seqOpt xs = some l) :
    ∀ e ∈ xs, ∃ v, e = some v ∧ v ∈ l := by
  induction xs generalizing l with
  | nil => intro e he; cases he
  | cons x rest ih =>
    cases x with
    | none => simp [seqOpt] at h
    | some w =>
      simp only [seqOpt] at h
      obtain ⟨a, ha, hl⟩ := Option.map_eq_some'.mp h
      subst hl
      intro e he
      rcases List.mem_cons.mp he with rfl | he
      · exact ⟨w, rfl, List.mem_cons_self _ _⟩
      · obtain ⟨v, hv, hvl⟩ := ih ha e he
        exact ⟨v, hv, List.mem_cons_of_mem _ hvl⟩

lemma mem_of_seqOpt {xs : List (Option ℚ)} {l : List ℚ} (h : seqOpt xs = some l) :
    ∀ v ∈ l, some v ∈ xs := by
  induction xs generalizing l with
  | nil =>
    simp only [seqOpt, Option.some.injEq] at h
    subst h
    intro v hv
    cases hv
  | cons x rest ih =>
    cases x with
    | none => simp [seqOpt] at h
    | some w =>
      simp only [seqOpt] at h
      obtain ⟨a, ha, hl⟩ := Option.map_eq_some'.mp h
      subst hl
      intro v hv
      rcases List.mem_cons.mp hv with rfl | hv
      · exact List.mem_cons_self _ _
      · exact List.mem_cons_of_mem _ (ih ha v hv)

lemma foldl_min_le_init (l : List ℚ) (x : ℚ) : l.foldl min x ≤ x := by
  induction l generalizing x with
  | nil => simp
  | cons y t ih => exact le_trans (ih (min x y)) (min_le_left x y)

lemma foldl_min_le_mem (l : List ℚ) : ∀ (x v : ℚ), v ∈ l → l.foldl min x ≤ v := by
  induction l with
  | nil => intro x v h; cases h
  | cons y t ih =>
    intro x v h
    rcases List.mem_cons.mp h with rfl | h
    · exact le_trans (foldl_min_le_init t (min x v)) (min_le_right x v)
    · exact ih (min x y) v h

lemma listMin_le {l : List ℚ} {m v : ℚ} (hm : listMin l = some m) (hv : v ∈ l) :
    m ≤ v := by
  cases l with
  | nil => cases hv
  | cons x t =>
    simp only [listMin, Option.some.injEq] at hm
    subst hm
    rcases List.mem_cons.mp hv with rfl | hv
    · exact foldl_min_le_init t v
    · exact foldl_min_le_mem t x v hv

lemma init_le_foldl_max (l : List ℚ) (x : ℚ) : x ≤ l.foldl max x := by
  induction l generalizing x with
  | nil => simp
  | cons y t ih => exact le_trans (le_max_left x y) (ih (max x y))

lemma mem_le_foldl_max (l : List ℚ) : ∀ (x v : ℚ), v ∈ l → v ≤ l.foldl max x := by
  induction l with
  | nil => intro x v h; cases h
  | cons y t ih =>
    intro x v h
    rcases List.mem_cons.mp h with rfl | h
    · exact le_trans (le_max_right x v) (init_le_foldl_max t (max x v))
    · exact ih (max x y) v h

lemma le_listMax {l : List ℚ} {m v : ℚ} (hm : listMax l = some m) (hv : v ∈ l) :
    v ≤ m := by
  cases l with
  | nil => cases hv
  | cons x t =>
    simp only [listMax, Option.some.injEq] at hm
    subst hm
    rcases List.mem_cons.mp hv with rfl | hv
    · exact init_le_foldl_max t v
    · exact mem_le_foldl_max t x v hv

lemma getD_none_eq_some {xs : List (Option ℚ)} {i : Nat} {v : ℚ}
    (h : xs.getD i none = some v) : some v ∈ xs := by
  rw [List.getD_eq_getElem?_getD] at h
  cases hx : xs[i]? with
  | none => rw [hx] at h; cases h
  | some o =>
    rw [hx] at h
    simp only [Option.getD_some] at h
    subst h
    exact List.getElem?_mem hx

lemma self_mem_window {xs : List (Option ℚ)} {p i : Nat} (hp : 0 < p) :
    xs.getD i none ∈ window xs p i := by
  unfold window
  exact List.mem_map.mpr ⟨0, List.mem_range.mpr hp, by simp⟩

lemma window_some_mem {xs : List (Option ℚ)} {p i : Nat} {v : ℚ}
    (h : some v ∈ window xs p i) : some v ∈ xs := by
  unfold window at h
  obtain ⟨k, -, hk⟩ := List.mem_map.mp h
  exact getD_none_eq_some hk

lemma rollMeanAt_nonneg {p : Nat} {xs : List (Option ℚ)} {i : Nat} {m : ℚ}
    (hxs : ∀ v : ℚ, some v ∈ xs → 0 ≤ v)
    (h : rollMeanAt p xs i = some m) : 0 ≤ m := by
  unfold rollMeanAt at h
  split at h
  · obtain ⟨l, hl, hm⟩ := Option.map_eq_some'.mp h
    subst hm
    apply div_nonneg
    · exact List.sum_nonneg (fun x hx => hxs x (window_some_mem (mem_of_seqOpt hl x hx)))
    · exact Nat.cast_nonneg p
  · cases h

lemma gainSeries_nonneg (close : List (Option ℚ)) :
    ∀ v : ℚ, some v ∈ Scanner.gainSeries close → 0 ≤ v := by
  intro v hv
  unfold Scanner.gainSeries at hv
  obtain ⟨d, -, hd⟩ := List.mem_map.mp hv
  cases d with
  | none =>
    simp only [oGt, oLt, if_neg Bool.false_ne_true, Option.some.injEq] at hd
    exact le_of_eq hd
  | some w =>
    by_cases h0 : (0 : ℚ) < w
    · rw [if_pos (by simp [oGt, oLt, h0])] at hd
      rw [Option.some.injEq] at hd
      subst hd
      exact le_of_lt h0
    · rw [if_neg (by simp [oGt, oLt, h0])] at hd
      rw [Option.some.injEq] at hd
      subst hd
      exact le_refl 0

lemma lossSeries_nonneg (close : List (Option ℚ)) :
    ∀ v : ℚ, some v ∈ Scanner.lossSeries close → 0 ≤ v := by
  intro v hv
  unfold Scanner.lossSeries at hv
  obtain ⟨d, -, hd⟩ := List.mem_map.mp hv
  cases d with
  | none =>
    simp only [oLt, if_neg Bool.false_ne_true, oNeg, Option.some.injEq] at hd
    subst hd
    simp
  | some w =>
    by_cases h0 : w < (0 : ℚ)
    · rw [if_pos (by simp [oLt, h0])] at hd
      simp only [oNeg, Option.some.injEq] at hd
      subst hd
      linarith
    · rw [if_neg (by simp [oLt, h0])] at hd
      simp only [oNeg, Option.some.injEq] at hd
      subst hd
      simp

/-! ## Claim C1 — RSI at zero average loss -/

/-- C1 counterexample: on eight strictly rising closes the 6-bar
average loss at index 7 is 0, yet the scanner's RSI6 there is NaN
(`none`), not the claimed 100: `loss.replace(0, np.nan)` turns the
zero denominator into NaN and NaN propagates to the RSI value. -/
theorem C1_counterexample :
    Scanner.avgLossAt 6 Scanner.rsiUpCloses 7 = some 0 ∧
    Scanner.get_rsiAt 6 Scanner.rsiUpCloses 7 = none := by
  constructor
  · with_unfolding_all rfl
  · with_unfolding_all rfl

/-- C1 (amended): when the rolling average loss is 0, the scanner's
RSI value is NaN (undefined), not 100; no division fault is raised,
and every value RSI does take lies in `[0, 100)`. -/
theorem C1_amended (close : List (Option ℚ)) (i : Nat) :
    (Scanner.avgLossAt 6 close i = some 0 → Scanner.get_rsiAt 6 close i = none) ∧
    (∀ x : ℚ, Scanner.get_rsiAt 6 close i = some x → 0 ≤ x ∧ x < 100) := by
  constructor
  · intro h
    unfold Scanner.get_rsiAt
    rw [h]
    have hrz : replZero (some (0 : ℚ)) = none := by simp [replZero]
    rw [hrz]
    cases hg : Scanner.avgGainAt 6 close i <;> simp [pdDiv, oAdd, oSub]
  · intro x hx
    unfold Scanner.get_rsiAt at hx
    cases hg : Scanner.avgGainAt 6 close i with
    | none => rw [hg] at hx; simp [pdDiv, oAdd, oSub] at hx
    | some g =>
      rw [hg] at hx
      cases hl : Scanner.avgLossAt 6 close i with
      | none => rw [hl] at hx; simp [replZero, pdDiv, oAdd, oSub] at hx
      | some lq =>
        rw [hl] at hx
        by_cases hlz : lq = 0
        · rw [hlz] at hx
          simp [replZero, pdDiv, oAdd, oSub] at hx
        · have hg0 : 0 ≤ g :=
            rollMeanAt_nonneg (gainSeries_nonneg close) hg
          have hl0 : 0 ≤ lq :=
            rollMeanAt_nonneg (lossSeries_nonneg close) hl
          have hlpos : 0 < lq := lt_of_le_of_ne hl0 (Ne.symm hlz)
          have hr0 : 0 ≤ g / lq := div_nonneg hg0 (le_of_lt hlpos)
          have hd1 : (1 : ℚ) ≤ 1 + g / lq := by linarith
          have hdne : (1 : ℚ) + g / lq ≠ 0 := by linarith
          simp only [replZero, Option.some_bind, if_neg hlz, pdDiv, oAdd,
            if_neg hdne, oSub, Option.some.injEq] at hx
          have hb0 : 0 < 100 / (1 + g / lq) := by positivity
          have hb100 : 100 / (1 + g / lq) ≤ 100 := by
            rw [div_le_iff₀ (by linarith)]
            nlinarith
          constructor
          · linarith [hx]
          · linarith [hx]

/-- C1 witness: a concrete series on which RSI is defined, where the
amended bound `[0, 100)` is obtained from `C1_amended`. -/
theorem C1_witness :
    Scanner.get_rsiAt 6 Scanner.rsiZigCloses 7 = some 50 ∧
    (0 : ℚ) ≤ 50 ∧ (50 : ℚ) < 100 := by
  refine ⟨by with_unfolding_all rfl, ?_⟩
  exact (C1_amended Scanner.rsiZigCloses 7).2 50 (by with_unfolding_all rfl)

/-! ## Claim C2 — KDJ RSV at zero 9-bar range -/

/-- C2 counterexample: on a constant series the 9-bar high equals the
9-bar low at index 8, and the RSV there is NaN (`none`), not the
claimed 50 — the source has no zero-range guard. -/
theorem C2_counterexample :
    Scanner.high9At Scanner.constFrame 8 = some 5 ∧
    Scanner.low9At Scanner.constFrame 8 = some 5 ∧
    Scanner.rsvAt Scanner.constFrame 8 = none := by
  refine ⟨by with_unfolding_all rfl, by with_unfolding_all rfl, by with_unfolding_all rfl⟩

/-- C2 (amended): on well-formed bars (`low ≤ close ≤ high`), when the
9-bar high equals the 9-bar low the RSV is NaN (undefined), not 50;
moreover the close is then pinned to that common value, so the NaN
arises as pandas `0/0`, never as a division fault. -/
theorem C2_amended (df : List Scanner.SBar) (i : Nat) (h l : ℚ)
    (hwf : ∀ b ∈ df, ∀ lo c hi : ℚ,
      b.low = some lo → b.close = some c → b.high = some hi → lo ≤ c ∧ c ≤ hi)
    (hh : Scanner.high9At df i = some h)
    (hl : Scanner.low9At df i = some l)
    (heq : h = l) :
    Scanner.rsvAt df i = none ∧
    (∀ c : ℚ, (Scanner.closesS df).getD i none = some c → c = l) := by
  subst heq
  constructor
  · unfold Scanner.rsvAt
    rw [hh, hl]
    have h0 : oSub (some h) (some h) = some 0 := by simp [oSub]
    rw [h0]
    cases (df.map (fun b => b.close)).getD i none with
    | none => rfl
    | some c => simp [oSub, pdDiv, oMul]
  · intro c hc
    have hmap : ((df[i]?).map (fun b => b.close)).getD none = some c := by
      simpa [Scanner.closesS, List.getD_eq_getElem?_getD, List.getElem?_map] using hc
    cases hdf : df[i]? with
    | none => rw [hdf] at hmap; cases hmap
    | some b =>
      rw [hdf] at hmap
      simp only [Option.map_some', Option.getD_some] at hmap
      have hbmem : b ∈ df := List.getElem?_mem hdf
      simp only [Scanner.low9At, rollMinAt] at hl
      simp only [Scanner.high9At, rollMaxAt] at hh
      by_cases hip : 9 ≤ i + 1
      · rw [if_pos hip] at hl hh
        · obtain ⟨wl, hseq, hmin⟩ := Option.bind_eq_some.mp hl
          obtain ⟨wh, hseqh, hmax⟩ := Option.bind_eq_some.mp hh
          have hwin : (df.map (fun b => b.low)).getD i none ∈
              window (df.map (fun b => b.low)) 9 i :=
            self_mem_window (by norm_num)
          have hent : (df.map (fun b => b.low)).getD i none = b.low := by
            rw [List.getD_eq_getElem?_getD, List.getElem?_map, hdf]
            rfl
          rw [hent] at hwin
          obtain ⟨lo, hblo, hlowl⟩ := seqOpt_forall hseq _ hwin
          have h_le_lo : h ≤ lo := listMin_le hmin hlowl
          have hwinh : (df.map (fun b => b.high)).getD i none ∈
              window (df.map (fun b => b.high)) 9 i :=
            self_mem_window (by norm_num)
          have henth : (df.map (fun b => b.high)).getD i none = b.high := by
            rw [List.getD_eq_getElem?_getD, List.getElem?_map, hdf]
            rfl
          rw [henth] at hwinh
          obtain ⟨hi2, hbhi, hhiwl⟩ := seqOpt_forall hseqh _ hwinh
          have hhi_le_h : hi2 ≤ h := le_listMax hmax hhiwl
          obtain ⟨hlo_c, hc_hi⟩ := hwf b hbmem lo c hi2 hblo hmap hbhi
          linarith
      · rw [if_neg hip] at hl
        cases hl

/-- C2 witness: the constant frame is well-formed and has zero 9-bar
range at index 9, so `C2_amended` yields an undefined RSV there. -/
theorem C2_witness : Scanner.rsvAt Scanner.constFrame 9 = none := by
  have hwf : ∀ b ∈ Scanner.constFrame, ∀ lo c hi : ℚ,
      b.low = some lo → b.close = some c → b.high = some hi →
      lo ≤ c ∧ c ≤ hi := by
    intro b hb lo c hi h1 h2 h3
    have hbe : b = Scanner.constSBar := List.eq_of_mem_replicate hb
    subst hbe
    simp only [Scanner.constSBar, Option.some.injEq] at h1 h2 h3
    subst h1
    subst h2
    subst h3
    exact ⟨le_refl _, le_refl _⟩
  exact (C2_amended Scanner.constFrame 9 5 5 hwf (by with_unfolding_all rfl)
    (by with_unfolding_all rfl) rfl).1

/-! ## Backtester scan-loop lemmas -/

lemma btLoop_mem (code : String) (df : List Backtester.Bar) :
    ∀ (l : List Nat) (acc res : List Backtester.Sig),
      Backtester.btLoop code df l acc = some res →
      ∀ s ∈ res, s ∈ acc ∨ ∃ i ∈ l, Backtester.ignitionB df i = true ∧
        (Backtester.wLookup df (Backtester.dateAt df i)).isSome = true ∧
        oLe (Backtester.openO df (i + 1)) (some 0) = false ∧
        s = Backtester.mkSigAt code df i := by
  intro l
  induction l with
  | nil =>
    intro acc res h s hs
    simp only [Backtester.btLoop, Option.some.injEq] at h
    subst h
    exact Or.inl hs
  | cons i rest ih =>
    intro acc res h s hs
    by_cases hig : Backtester.ignitionB df i = true
    · rw [Backtester.btLoop, if_pos hig] at h
      cases hw : Backtester.wLookup df (Backtester.dateAt df i) with
      | none => rw [hw] at h; cases h
      | some w =>
        rw [hw] at h
        by_cases hbuy : oLe (Backtester.openO df (i + 1)) (some 0) = true
        · rw [if_pos hbuy] at h
          rcases ih _ _ h s hs with hacc | ⟨j, hj, hrest⟩
          · exact Or.inl hacc
          · exact Or.inr ⟨j, List.mem_cons_of_mem _ hj, hrest⟩
        · rw [if_neg hbuy] at h
          rcases ih _ _ h s hs with hacc | ⟨j, hj, hrest⟩
          · rcases List.mem_append.mp hacc with h1 | h2
            · exact Or.inl h1
            · have hs_eq : s = Backtester.mkSigAt code df i := by simpa using h2
              exact Or.inr ⟨i, List.mem_cons_self _ _, hig, by rw [hw]; rfl,
                by simpa using hbuy, hs_eq⟩
          · exact Or.inr ⟨j, List.mem_cons_of_mem _ hj, hrest⟩
    · rw [Backtester.btLoop, if_neg hig] at h
      rcases ih _ _ h s hs with hacc | ⟨j, hj, hrest⟩
      · exact Or.inl hacc
      · exact Or.inr ⟨j, List.mem_cons_of_mem _ hj, hrest⟩

lemma btLoop_complete (code : String) (df : List Backtester.Bar) :
    ∀ (l : List Nat) (acc : List Backtester.Sig),
      (∀ j ∈ l, Backtester.ignitionB df j = true →
        (Backtester.wLookup df (Backtester.dateAt df j)).isSome = true) →
      Backtester.btLoop code df l acc =
        some (acc ++ (l.filter (fun j => Backtester.ignitionB df j &&
          !(oLe (Backtester.openO df (j + 1)) (some 0)))).map
            (Backtester.mkSigAt code df)) := by
  intro l
  induction l with
  | nil =>
    intro acc h
    simp [Backtester.btLoop]
  | cons i rest ih =>
    intro acc h
    by_cases hig : Backtester.ignitionB df i = true
    · have hw := h i (List.mem_cons_self _ _) hig
      cases hwl : Backtester.wLookup df (Backtester.dateAt df i) with
      | none => rw [hwl] at hw; simp at hw
      | some w =>
        rw [Backtester.btLoop, if_pos hig, hwl]
        by_cases hbuy : oLe (Backtester.openO df (i + 1)) (some 0) = true
        · rw [if_pos hbuy, ih acc (fun j hj => h j (List.mem_cons_of_mem _ hj))]
          rw [List.filter_cons, if_neg (by simp [hig, hbuy])]
        · rw [if_neg hbuy, ih _ (fun j hj => h j (List.mem_cons_of_mem _ hj))]
          rw [List.filter_cons,
            if_pos (by simp [hig, Bool.not_eq_true _ ▸ rfl]; simpa using hbuy)]
          simp [List.append_assoc]
    · rw [Backtester.btLoop, if_neg hig,
        ih acc (fun j hj => h j (List.mem_cons_of_mem _ hj))]
      rw [List.filter_cons, if_neg (by simp [hig])]

lemma filter_and_of_filter_singleton {l : List Nat} {p q : Nat → Bool} {i : Nat}
    (hp : l.filter p = [i]) (hq : q i = true) :
    l.filter (fun x => p x && q x) = [i] := by
  induction l with
  | nil => simp at hp
  | cons a t ih =>
    by_cases hpa : p a = true
    · rw [List.filter_cons, if_pos hpa] at hp
      have h1 : a = i := (List.cons_eq_cons.mp hp).1
      have h2 : t.filter p = [] := (List.cons_eq_cons.mp hp).2
      subst h1
      rw [List.filter_cons, if_pos (by simp [hpa, hq])]
      have h3 : t.filter (fun x => p x && q x) = [] := by
        rw [List.filter_eq_nil_iff]
        intro x hx
        simp only [Bool.and_eq_true, not_and]
        intro hpx
        exact absurd hpx (List.filter_eq_nil_iff.mp h2 x hx)
      rw [h3]
    · rw [List.filter_cons, if_neg hpa] at hp
      rw [List.filter_cons, if_neg (by simp [hpa])]
      exact ih hp

/-! ## Claim C5 — entry price is the next bar's open -/

/-- C5: for every instrument and every emitted `SignalEvent` fired at
bar `idx`, the recorded entry price is the open of bar `idx + 1`
(`buy_price = df.iloc[i+1]['开盘']`). -/
theorem C5_entry_is_next_open (code : String) (df : List Backtester.Bar)
    (s : Backtester.Sig)
    (hs : s ∈ Backtester.backtest_single_stock code df) :
    s.entry = Backtester.openO df (s.idx + 1) := by
  unfold Backtester.backtest_single_stock at hs
  split at hs
  · cases hs
  · cases hb : Backtester.btLoop code df (Backtester.scanRange df) [] with
    | none => rw [hb] at hs; cases hs
    | some res =>
      rw [hb] at hs
      simp only [Option.getD_some] at hs
      rcases btLoop_mem code df _ [] res hb s hs with h0 | ⟨i, -, -, -, -, hs_eq⟩
      · cases h0
      · subst hs_eq
        rfl

set_option maxRecDepth 400000 in
/-- C5 witness: the concrete 150-bar series emits a signal at bar 115
whose entry, by `C5_entry_is_next_open`, is the open of bar 116. -/
theorem C5_witness :
    Backtester.mkSigAt "X" Backtester.bt150 115 ∈
      Backtester.backtest_single_stock "X" Backtester.bt150 ∧
    (Backtester.mkSigAt "X" Backtester.bt150 115).entry =
      Backtester.openO Backtester.bt150 ((Backtester.mkSigAt "X" Backtester.bt150 115).idx + 1) := by
  have heq : Backtester.backtest_single_stock "X" Backtester.bt150 =
      [Backtester.mkSigAt "X" Backtester.bt150 115] := by
    with_unfolding_all rfl
  have hmem : Backtester.mkSigAt "X" Backtester.bt150 115 ∈
      Backtester.backtest_single_stock "X" Backtester.bt150 := by
    rw [heq]
    exact List.mem_singleton.mpr rfl
  exact ⟨hmem, C5_entry_is_next_open "X" Backtester.bt150 _ hmem⟩

/-! ## Claim C6 — recorded returns follow the formula -/

/-- C6: every emitted `SignalEvent` records, for the hold periods
`[1, 3, 5, 7, 14, 20, 30]` in order, exactly
`round((close[idx+p] - entry) / entry * 100, 2)` (NaN-propagating). -/
theorem C6_returns_formula (code : String) (df : List Backtester.Bar)
    (s : Backtester.Sig)
    (hs : s ∈ Backtester.backtest_single_stock code df) :
    s.rets = Backtester.HOLD_PERIODS.map (fun p =>
      (pdDiv (oSub (Backtester.closeO df (s.idx + p)) s.entry) s.entry).bind
        (fun r => some (round2 (r * 100)))) := by
  unfold Backtester.backtest_single_stock at hs
  split at hs
  · cases hs
  · cases hb : Backtester.btLoop code df (Backtester.scanRange df) [] with
    | none => rw [hb] at hs; cases hs
    | some res =>
      rw [hb] at hs
      simp only [Option.getD_some] at hs
      rcases btLoop_mem code df _ [] res hb s hs with h0 | ⟨i, -, -, -, -, hs_eq⟩
      · cases h0
      · subst hs_eq
        rfl

set_option maxRecDepth 400000 in
/-- C6 witness: the concrete 150-bar series' emitted signal satisfies
the return formula of `C6_returns_formula` at every hold period. -/
theorem C6_witness :
    Backtester.mkSigAt "X" Backtester.bt150 115 ∈
      Backtester.backtest_single_stock "X" Backtester.bt150 ∧
    (Backtester.mkSigAt "X" Backtester.bt150 115).rets =
      Backtester.HOLD_PERIODS.map (fun p =>
        (pdDiv (oSub (Backtester.closeO Backtester.bt150
            ((Backtester.mkSigAt "X" Backtester.bt150 115).idx + p))
          (Backtester.mkSigAt "X" Backtester.bt150 115).entry)
          (Backtester.mkSigAt "X" Backtester.bt150 115).entry).bind
          (fun r => some (round2 (r * 100)))) := by
  have heq : Backtester.backtest_single_stock "X" Backtester.bt150 =
      [Backtester.mkSigAt "X" Backtester.bt150 115] := by
    with_unfolding_all rfl
  have hmem : Backtester.mkSigAt "X" Backtester.bt150 115 ∈
      Backtester.backtest_single_stock "X" Backtester.bt150 := by
    rw [heq]
    exact List.mem_singleton.mpr rfl
  exact ⟨hmem, C6_returns_formula "X" Backtester.bt150 _ hmem⟩

/-! ## Claim C7 — short series and faults yield an empty result -/

/-- C7: the per-instrument runner returns `[]` (it never raises) both
for series below the 150-bar minimum and whenever the scan loop
faults internally. -/
theorem C7_short_or_fault_empty (code : String) (df : List Backtester.Bar)
    (h : df.length < 150 ∨ Backtester.scanFault code df = true) :
    Backtester.backtest_single_stock code df = [] := by
  unfold Backtester.backtest_single_stock
  by_cases hlen : df.length < 150
  · rw [if_pos hlen]
  · rw [if_neg hlen]
    rcases h with h | h
    · exact absurd h hlen
    · unfold Backtester.scanFault at h
      cases hb : Backtester.btLoop code df (Backtester.scanRange df) [] with
      | none => rfl
      | some res => rw [hb] at h; simp at h

/-- C7 witness: a 99-bar instrument yields zero signals and no
exception, via `C7_short_or_fault_empty`. -/
theorem C7_witness :
    Backtester.bt99.length < 150 ∧
    Backtester.backtest_single_stock "X" Backtester.bt99 = [] := by
  have hlen : Backtester.bt99.length < 150 := by
    with_unfolding_all decide
  exact ⟨hlen, C7_short_or_fault_empty "X" Backtester.bt99 (Or.inl hlen)⟩

/-! ## Claim C10 — per-instrument failure handling is atomic -/

/-- C10: the runner's output is all-or-nothing: either `[]` (short
series, or a fault anywhere in the scan — even after signals were
already collected, the bare `except:` discards the accumulator), or
the complete fault-free scan result; never a partial prefix. -/
theorem C10_all_or_nothing (code : String) (df : List Backtester.Bar) :
    Backtester.backtest_single_stock code df = [] ∨
    Backtester.btLoop code df (Backtester.scanRange df) [] =
      some (Backtester.backtest_single_stock code df) := by
  unfold Backtester.backtest_single_stock
  by_cases hlen : df.length < 150
  · rw [if_pos hlen]
    exact Or.inl rfl
  · rw [if_neg hlen]
    cases hb : Backtester.btLoop code df (Backtester.scanRange df) [] with
    | none => exact Or.inl rfl
    | some res => exact Or.inr rfl

/-! ## Claim C3 — the synthetic single-signal scenario -/

set_option maxRecDepth 400000 in
/-- C3 counterexample: a 130-bar series with exactly one bar (110)
satisfying all four claimed conditions (RSI6 < 25, close > MA5,
volume above the previous bar, improving MACD histogram) produces NO
signal at all: `backtest_single_stock` rejects every series shorter
than 150 bars, so 100 bars are not enough to be scanned. -/
theorem C3_counterexample :
    (List.range 130).filter (fun i => Backtester.fourCondB Backtester.bt130 i) = [110] ∧
    Backtester.backtest_single_stock "X" Backtester.bt130 = [] := by
  constructor
  · with_unfolding_all rfl
  · with_unfolding_all rfl

/-- C3 (amended): the minimum length is 150 bars, not 100, and the
source's signal predicate omits the volume condition. A series of at
least 150 bars whose scan range `[100, n-31)` contains exactly one
ignition bar `i` (RSI6 < 25, close > MA5, improving MACD histogram),
with a successful weekly lookup at bar `i` and a positive next-bar
open, produces exactly one `SignalEvent`, fired at bar `i`, with entry
equal to bar `i+1`'s open. -/
theorem C3_amended (code : String) (df : List Backtester.Bar) (i : Nat)
    (hlen : 150 ≤ df.length)
    (hone : (Backtester.scanRange df).filter
      (fun j => Backtester.ignitionB df j) = [i])
    (hlook : (Backtester.wLookup df (Backtester.dateAt df i)).isSome = true)
    (hbuy : oLe (Backtester.openO df (i + 1)) (some 0) = false) :
    Backtester.backtest_single_stock code df = [Backtester.mkSigAt code df i] ∧
    (Backtester.mkSigAt code df i).idx = i ∧
    (Backtester.mkSigAt code df i).entry = Backtester.openO df (i + 1) := by
  refine ⟨?_, rfl, rfl⟩
  have hnofault : ∀ j ∈ Backtester.scanRange df, Backtester.ignitionB df j = true →
      (Backtester.wLookup df (Backtester.dateAt df j)).isSome = true := by
    intro j hj hig
    have hmem : j ∈ (Backtester.scanRange df).filter
        (fun j => Backtester.ignitionB df j) :=
      List.mem_filter.mpr ⟨hj, hig⟩
    rw [hone] at hmem
    have hj_eq : j = i := by simpa using hmem
    subst hj_eq
    exact hlook
  have hfil : (Backtester.scanRange df).filter
      (fun j => Backtester.ignitionB df j &&
        !(oLe (Backtester.openO df (j + 1)) (some 0))) = [i] :=
    filter_and_of_filter_singleton hone (by rw [hbuy]; rfl)
  unfold Backtester.backtest_single_stock
  rw [if_neg (by omega)]
  rw [btLoop_complete code df _ [] hnofault, hfil]
  rfl

set_option maxRecDepth 400000 in
/-- C3 witness: the concrete 150-bar series has exactly one ignition
bar (115) in its scan range and, by `C3_amended`, yields exactly the
one signal fired there. -/
theorem C3_witness :
    150 ≤ Backtester.bt150.length ∧
    (Backtester.scanRange Backtester.bt150).filter
      (fun j => Backtester.ignitionB Backtester.bt150 j) = [115] ∧
    Backtester.backtest_single_stock "X" Backtester.bt150 =
      [Backtester.mkSigAt "X" Backtester.bt150 115] := by
  have h1 : 150 ≤ Backtester.bt150.length := by with_unfolding_all decide
  have h2 : (Backtester.scanRange Backtester.bt150).filter
      (fun j => Backtester.ignitionB Backtester.bt150 j) = [115] := by
    with_unfolding_all rfl
  have h3 : (Backtester.wLookup Backtester.bt150
      (Backtester.dateAt Backtester.bt150 115)).isSome = true := by
    with_unfolding_all rfl
  have h4 : oLe (Backtester.openO Backtester.bt150 116) (some 0) = false := by
    with_unfolding_all rfl
  exact ⟨h1, h2, (C3_amended "X" Backtester.bt150 115 h1 h2 h3 h4).1⟩

/-! ## Claim C4 — validity policy of the summary statistics -/

lemma isEmpty_eq_of_length_eq {α β : Type} {l1 : List α} {l2 : List β}
    (h : l1.length = l2.length) : l1.isEmpty = l2.isEmpty := by
  cases l1 <;> cases l2 <;> simp_all

lemma countP_zeroFill (rets : List (Option ℚ)) :
    (rets.map (fun o => o.getD 0)).countP (fun r => decide (0 < r)) =
      rets.countP (fun o => oGt o (some 0)) := by
  induction rets with
  | nil => rfl
  | cons o t ih =>
    cases o with
    | none => simp [List.countP_cons, ih, oGt, oLt]
    | some v => simp [List.countP_cons, ih, oGt, oLt]

lemma filterMap_facts_of_all_some {rets : List (Option ℚ)}
    (h : ∀ o ∈ rets, o.isSome = true) :
    rets.filterMap id = rets.map (fun o => o.getD 0) ∧
    (rets.filterMap id).length = rets.length ∧
    (rets.filterMap id).countP (fun r => decide (0 < r)) =
      rets.countP (fun o => oGt o (some 0)) := by
  induction rets with
  | nil => exact ⟨rfl, rfl, rfl⟩
  | cons o t ih =>
    cases o with
    | none =>
      have := h none (List.mem_cons_self _ _)
      simp at this
    | some v =>
      obtain ⟨h1, h2, h3⟩ := ih (fun o ho => h o (List.mem_cons_of_mem _ ho))
      refine ⟨?_, ?_, ?_⟩
      · simp [List.filterMap_cons, h1]
      · simp [List.filterMap_cons, h2]
      · simp [List.filterMap_cons, List.countP_cons, h3, oGt, oLt]

/-- C4 counterexample: on a column with one valid return (+10) and one
NaN return, the code's statistics are (50%, +10, 2) — the NaN return
sits in the win-rate denominator and in the sample count but is
dropped from the mean. This triple matches neither the drop-null
policy (100%, +10, 1) nor the zero-fill policy (50%, +5, 2): the code
mixes the two. -/
theorem C4_counterexample :
    (Backtester.codeWinRate Backtester.mixedCol,
     Backtester.codeAvgRet Backtester.mixedCol,
     Backtester.codeCount Backtester.mixedCol) ≠
      (Backtester.dropWinRate Backtester.mixedCol,
       Backtester.dropAvgRet Backtester.mixedCol,
       Backtester.dropCount Backtester.mixedCol) ∧
    (Backtester.codeWinRate Backtester.mixedCol,
     Backtester.codeAvgRet Backtester.mixedCol,
     Backtester.codeCount Backtester.mixedCol) ≠
      (Backtester.zeroWinRate Backtester.mixedCol,
       Backtester.zeroAvgRet Backtester.mixedCol,
       Backtester.zeroCount Backtester.mixedCol) := by
  constructor
  · with_unfolding_all decide
  · with_unfolding_all decide

/-- C4 (amended): the code's win rate and sample count run over all
rows (an invalid return counts as a loss in the denominator) while its
average runs over the valid rows only — a mix of the two policies.
The three statistics coincide with a single consistent policy exactly
on columns where every recorded return is valid, and then both
candidate policies agree with the code. -/
theorem C4_amended (rets : List (Option ℚ)) (h : ∀ o ∈ rets, o.isSome = true) :
    Backtester.codeWinRate rets = Backtester.dropWinRate rets ∧
    Backtester.codeAvgRet rets = Backtester.dropAvgRet rets ∧
    Backtester.codeCount rets = Backtester.dropCount rets ∧
    Backtester.codeWinRate rets = Backtester.zeroWinRate rets ∧
    Backtester.codeAvgRet rets = Backtester.zeroAvgRet rets ∧
    Backtester.codeCount rets = Backtester.zeroCount rets := by
  obtain ⟨h1, h2, h3⟩ := filterMap_facts_of_all_some h
  refine ⟨?_, rfl, ?_, ?_, ?_, rfl⟩
  · unfold Backtester.codeWinRate Backtester.dropWinRate
    rw [h3, h2]
  · unfold Backtester.codeCount Backtester.dropCount
    rw [h2]
  · unfold Backtester.codeWinRate Backtester.zeroWinRate
    rw [countP_zeroFill, List.length_map]
  · unfold Backtester.codeAvgRet Backtester.zeroAvgRet
    rw [h1]

/-- C4 witness: on an all-valid column the three statistics agree with
both single policies, via `C4_amended`. -/
theorem C4_witness :
    (∀ o ∈ Backtester.allValidCol, o.isSome = true) ∧
    Backtester.codeWinRate Backtester.allValidCol =
      Backtester.dropWinRate Backtester.allValidCol ∧
    Backtester.codeCount Backtester.allValidCol =
      Backtester.dropCount Backtester.allValidCol := by
  have h : ∀ o ∈ Backtester.allValidCol, o.isSome = true := by
    with_unfolding_all decide
  obtain ⟨h1, -, h3, -, -, -⟩ := C4_amended Backtester.allValidCol h
  exact ⟨h, h1, h3⟩

/-! ## Claim C8 — aggregation is order-independent -/

lemma codeWinRate_perm {r1 r2 : List (Option ℚ)} (h : r1.Perm r2) :
    Backtester.codeWinRate r1 = Backtester.codeWinRate r2 := by
  unfold Backtester.codeWinRate
  rw [h.countP_eq, h.length_eq]

lemma codeAvgRet_perm {r1 r2 : List (Option ℚ)} (h : r1.Perm r2) :
    Backtester.codeAvgRet r1 = Backtester.codeAvgRet r2 := by
  unfold Backtester.codeAvgRet
  have hfm : (r1.filterMap id).Perm (r2.filterMap id) := h.filterMap id
  rw [hfm.sum_eq, hfm.length_eq, isEmpty_eq_of_length_eq hfm.length_eq]

lemma codeCount_perm {r1 r2 : List (Option ℚ)} (h : r1.Perm r2) :
    Backtester.codeCount r1 = Backtester.codeCount r2 :=
  h.length_eq

lemma levelStats_perm {r1 r2 : List Backtester.Sig} (h : r1.Perm r2) (lv : String) :
    Backtester.levelStats r1 lv = Backtester.levelStats r2 lv := by
  have hsub : (r1.filter (fun s => s.level = lv)).Perm
      (r2.filter (fun s => s.level = lv)) := h.filter _
  have hlen := hsub.length_eq
  unfold Backtester.levelStats
  rw [isEmpty_eq_of_length_eq hlen]
  by_cases he : (r2.filter (fun s => s.level = lv)).isEmpty = true
  · rw [if_pos he, if_pos he]
  · rw [if_neg he, if_neg he]
    apply List.map_congr_left
    intro k _hk
    have hcol : (Backtester.retCol (r1.filter (fun s => s.level = lv)) k).Perm
        (Backtester.retCol (r2.filter (fun s => s.level = lv)) k) := hsub.map _
    have hw := codeWinRate_perm hcol
    have ha := codeAvgRet_perm hcol
    have hc : Backtester.codeCount (Backtester.retCol (r1.filter (fun s => s.level = lv)) k) =
        Backtester.codeCount (Backtester.retCol (r2.filter (fun s => s.level = lv)) k) :=
      codeCount_perm hcol
    rw [hw, ha, hc]

lemma summaryOf_perm {r1 r2 : List Backtester.Sig} (h : r1.Perm r2) :
    Backtester.summaryOf r1 = Backtester.summaryOf r2 := by
  unfold Backtester.summaryOf
  rw [levelStats_perm h, levelStats_perm h]

/-- C8: permuting the order in which per-instrument signal lists are
merged leaves every per-level, per-horizon summary row identical (the
statistics are exact rationals in this model, so "identical" is exact
equality of the computed values). -/
theorem C8_aggregation_order_independent (ls1 ls2 : List (List Backtester.Sig))
    (h : ls1.Perm ls2) :
    Backtester.summaryOf ls1.flatten = Backtester.summaryOf ls2.flatten :=
  summaryOf_perm h.flatten

/-- C8 witness: swapping two instruments' signal lists leaves the
summary table unchanged, via `C8_aggregation_order_independent`. -/
theorem C8_witness :
    ([[Backtester.sigA], [Backtester.sigB]] : List (List Backtester.Sig)).Perm
      [[Backtester.sigB], [Backtester.sigA]] ∧
    Backtester.summaryOf ([[Backtester.sigA], [Backtester.sigB]] :
        List (List Backtester.Sig)).flatten =
      Backtester.summaryOf ([[Backtester.sigB], [Backtester.sigA]] :
        List (List Backtester.Sig)).flatten := by
  have hp : ([[Backtester.sigA], [Backtester.sigB]] : List (List Backtester.Sig)).Perm
      [[Backtester.sigB], [Backtester.sigA]] := List.Perm.swap _ _ _
  exact ⟨hp, C8_aggregation_order_independent _ _ hp⟩

/-! ## Claim C9 — the name lookup and signal logic -/

set_option maxRecDepth 400000 in
/-- C9 counterexample: the display-name lookup is not mere decoration:
with an empty name table the declining 60-bar instrument is selected
(observation-pool tag), but a name table that maps it to an ST name
makes `process_single_stock` drop it before scanning. -/
theorem C9_counterexample :
    Scanner.process_single_stock "X" Scanner.stNameMap Scanner.scan60 = none ∧
    Scanner.process_single_stock "X" [] Scanner.scan60 ≠ none := by
  constructor
  · with_unfolding_all rfl
  · intro hnone
    have hsome : (Scanner.process_single_stock "X" [] Scanner.scan60).isSome = true := by
      with_unfolding_all rfl
    rw [hnone] at hsome
    cases hsome

/-- C9 (amended): the name lookup influences selection only through
the ST filter: whenever two name tables give the instrument names that
agree on the `"ST" in name.upper()` test, the scan outcomes are
identical up to the `名称` decoration field. -/
theorem C9_amended (code : String) (m1 m2 : List (String × String))
    (df : List Scanner.SBar)
    (h : Scanner.containsST (Scanner.nameLookup m1 code) =
      Scanner.containsST (Scanner.nameLookup m2 code)) :
    Scanner.maskName (Scanner.process_single_stock code m1 df) =
      Scanner.maskName (Scanner.process_single_stock code m2 df) := by
  unfold Scanner.process_single_stock
  by_cases h1 : Scanner.containsST (Scanner.nameLookup m1 code) = true
  · rw [if_pos h1, if_pos (by rw [← h]; exact h1)]
  · rw [if_neg h1, if_neg (by rw [← h]; exact h1)]
    cases Scanner.scanBody code df with
    | none => rfl
    | some r => rfl

set_option maxRecDepth 400000 in
/-- C9 witness: two concrete non-ST name tables (one empty) give
identical outcomes modulo the name field, via `C9_amended`. -/
theorem C9_witness :
    Scanner.containsST (Scanner.nameLookup Scanner.plainNameMap "X") = false ∧
    Scanner.containsST (Scanner.nameLookup [] "X") = false ∧
    Scanner.maskName (Scanner.process_single_stock "X" Scanner.plainNameMap Scanner.scan60) =
      Scanner.maskName (Scanner.process_single_stock "X" [] Scanner.scan60) := by
  refine ⟨by with_unfolding_all rfl, by with_unfolding_all rfl, ?_⟩
  exact C9_amended "X" Scanner.plainNameMap [] Scanner.scan60 (by with_unfolding_all rfl)

end Sea
